import Mathlib

/-!
Verification development for the code-translator repository.

The Lean definitions below are shallow embeddings of the Python source:

* `src/providers/provider_framework.py` — circuit breaker, provider metrics,
  fallback chain, load balancer;
* `src/translator/translator_engine.py` — translation cache, offline routing,
  language detection (including its regex pattern tables);
* `src/translator/offline_translator.py` — the offline translator's
  same-language short-circuit;
* `src/config/config_manager.py` — schema validation, checksummed saves,
  import/export;
* `src/analyzer/complexity.py` — Big-O estimation.

External effects (Python's `hash`, `json.dumps(..., sort_keys=True)`,
SHA-256, Fernet encryption, the remote AI clients) are modelled as opaque
function parameters: every theorem quantifies over them, so nothing proved
depends on their behaviour.  Machine floats in the source carry only exact
decimal constants (0.7, 0.95, …) and are modelled as rationals.
-/

/-! # A small regular-expression engine

`re.search(pattern, code, re.MULTILINE)` in `detect_language` is embedded by
an executable matcher over `List Char`.  The abstract syntax covers exactly
the constructs used by the detector's pattern tables: literals, `.`,
character classes with ranges and `\s`/`\w`/`\d`, groups, alternation,
`*`/`+`/`?`/`{n}` quantifiers, the multiline `^` anchor and `\b`.
-/

/-- One item of a character class `[...]`. -/
inductive ClsItem where
  | ch (c : Char)
  | range (lo hi : Char)
  | digit
  | word
  | space
deriving Repr, DecidableEq

/-- Abstract syntax of the regular expressions used by the source. -/
inductive Reg where
  | eps
  | any
  | lit (c : Char)
  | cls (neg : Bool) (items : List ClsItem)
  | seq (a b : Reg)
  | alt (a b : Reg)
  | star (r : Reg)
  | bol
  | wb
deriving Repr

/-- Python `\w` on ASCII input: letters, digits, underscore. -/
def isWordChar (c : Char) : Bool :=
  c.isAlpha || c.isDigit || c = Char.ofNat 95

/-- Python `\s` on ASCII input: space, tab, LF, VT, FF, CR. -/
def isSpaceChar (c : Char) : Bool :=
  c = Char.ofNat 32 || (9 ≤ c.toNat && c.toNat ≤ 13)

/-- Does one class item match a character? -/
def clsItemMatch (c : Char) : ClsItem → Bool
  | .ch c2 => c = c2
  | .range lo hi => lo.toNat ≤ c.toNat && c.toNat ≤ hi.toNat
  | .digit => c.isDigit
  | .word => isWordChar c
  | .space => isSpaceChar c

/-- Does a (possibly negated) character class match a character? -/
def clsMatch (neg : Bool) (items : List ClsItem) (c : Char) : Bool :=
  if neg then !(items.any (clsItemMatch c)) else items.any (clsItemMatch c)

/-- Structural size of a regex, used to provision matcher fuel. -/
def regSize : Reg → Nat
  | .eps => 1
  | .any => 1
  | .lit _ => 1
  | .cls _ _ => 1
  | .seq a b => regSize a + regSize b + 1
  | .alt a b => regSize a + regSize b + 1
  | .star r => regSize r + 1
  | .bol => 1
  | .wb => 1

/-- A matcher state: the character just before the current position (for
`^` and `\b`) and the remaining input. -/
abbrev MState := Option Char × List Char

/-- All states reachable by matching `r` from a state, fuel-bounded
backtracking.  A `star` iteration must consume at least one character, so
the provisioned fuel (see `regSearch`) is always sufficient. -/
def endsF : Nat → Reg → MState → List MState
  | 0, _, _ => []
  | _ + 1, .eps, st => [st]
  | _ + 1, .any, st =>
    match st.2 with
    | [] => []
    | c :: t => if c = Char.ofNat 10 then [] else [(some c, t)]
  | _ + 1, .lit c2, st =>
    match st.2 with
    | [] => []
    | c :: t => if c = c2 then [(some c, t)] else []
  | _ + 1, .cls neg items, st =>
    match st.2 with
    | [] => []
    | c :: t => if clsMatch neg items c then [(some c, t)] else []
  | _ + 1, .bol, st =>
    if st.1 = none || st.1 = some (Char.ofNat 10) then [st] else []
  | _ + 1, .wb, st =>
    let a := match st.1 with | some c => isWordChar c | none => false
    let b := match st.2 with | c :: _ => isWordChar c | [] => false
    if a ≠ b then [st] else []
  | f + 1, .alt r1 r2, st => endsF f r1 st ++ endsF f r2 st
  | f + 1, .seq r1 r2, st =>
    (endsF f r1 st).foldr (fun st2 acc => endsF f r2 st2 ++ acc) []
  | f + 1, .star r, st =>
    st :: (((endsF f r st).filter (fun st2 => st2.2.length < st.2.length)).foldr
      (fun st2 acc => endsF f (.star r) st2 ++ acc) [])

/-- Can `r` match starting exactly at the given state? -/
def matchHereF (f : Nat) (r : Reg) (st : MState) : Bool :=
  !(endsF f r st).isEmpty

/-- Scan every start position, as `re.search` does. -/
def searchLoop (f : Nat) (r : Reg) : Option Char → List Char → Bool
  | prev, s =>
    if matchHereF f r (prev, s) then true
    else
      match s with
      | [] => false
      | c :: t => searchLoop f r (some c) t

/-- `re.search(r, s, re.MULTILINE)` as a Boolean. -/
def regSearch (r : Reg) (s : List Char) : Bool :=
  searchLoop ((regSize r + 2) * (s.length + 2)) r none s

/-! ## Compiling the source's pattern strings

The detector's patterns are kept verbatim as strings (braces, quotes and
backticks written with `\xNN` escapes) and compiled by a small
recursive-descent reader. -/

/-- `{n}` quantifier: `n` copies in sequence. -/
def repN : Nat → Reg → Reg
  | 0, _ => .eps
  | 1, r => r
  | n + 1, r => .seq r (repN n r)

/-- Read a class escape `\s`, `\w`, `\d`; any other escaped char is literal. -/
def clsEscItem (c : Char) : ClsItem :=
  if c = Char.ofNat 115 then .space
  else if c = Char.ofNat 119 then .word
  else if c = Char.ofNat 100 then .digit
  else .ch c

/-- Read character-class items up to the closing `]`. -/
def parseClsItems : Nat → List Char → Option (List ClsItem × List Char)
  | 0, _ => none
  | _ + 1, [] => none
  | f + 1, c :: t =>
    if c = Char.ofNat 93 then some ([], t)  -- ]
    else if c = Char.ofNat 92 then  -- backslash
      match t with
      | [] => none
      | e :: t2 =>
        match parseClsItems f t2 with
        | some (items, rest) => some (clsEscItem e :: items, rest)
        | none => none
    else
      match t with
      | d :: c2 :: t2 =>
        if d = Char.ofNat 45 && c2 ≠ Char.ofNat 93 && c2 ≠ Char.ofNat 92 then
          -- a range  c - c2
          match parseClsItems f t2 with
          | some (items, rest) => some (.range c c2 :: items, rest)
          | none => none
        else
          match parseClsItems f t with
          | some (items, rest) => some (.ch c :: items, rest)
          | none => none
      | _ =>
        match parseClsItems f t with
        | some (items, rest) => some (.ch c :: items, rest)
        | none => none

/-- Read a decimal number (for `{n}`). -/
def parseNumR : Nat → List Char → Nat → Option (Nat × List Char)
  | 0, _, _ => none
  | _ + 1, [], acc => some (acc, [])
  | f + 1, c :: t, acc =>
    if c.isDigit then parseNumR f t (acc * 10 + (c.toNat - 48))
    else some (acc, c :: t)

/-- Apply a postfix quantifier, if present. -/
def parseQuant (f : Nat) (a : Reg) (s : List Char) : Option (Reg × List Char) :=
  match s with
  | c :: t =>
    if c = Char.ofNat 42 then some (.star a, t)            -- *
    else if c = Char.ofNat 43 then some (.seq a (.star a), t)  -- +
    else if c = Char.ofNat 63 then some (.alt a .eps, t)   -- ?
    else if c = Char.ofNat 123 then                        -- left brace
      match parseNumR f t 0 with
      | some (n, u) =>
        match u with
        | d :: u2 => if d = Char.ofNat 125 then some (repN n a, u2) else none
        | [] => none
      | none => none
    else some (a, s)
  | [] => some (a, s)

mutual

/-- Read an alternation `b₁|b₂|…`. -/
def parseAltR : Nat → List Char → Option (Reg × List Char)
  | 0, _ => none
  | f + 1, s =>
    match parseSeqR f s with
    | some (r1, rest) =>
      match rest with
      | c :: t =>
        if c = Char.ofNat 124 then  -- |
          match parseAltR f t with
          | some (r2, rest2) => some (.alt r1 r2, rest2)
          | none => none
        else some (r1, rest)
      | [] => some (r1, rest)
    | none => none

/-- Read a concatenation of pieces, stopping at `|`, `)` or the end. -/
def parseSeqR : Nat → List Char → Option (Reg × List Char)
  | 0, _ => none
  | f + 1, s =>
    match s with
    | [] => some (.eps, [])
    | c :: _ =>
      if c = Char.ofNat 124 || c = Char.ofNat 41 then some (.eps, s)  -- | or )
      else
        match parsePieceR f s with
        | some (r1, rest) =>
          match parseSeqR f rest with
          | some (r2, rest2) => some (.seq r1 r2, rest2)
          | none => none
        | none => none

/-- Read one atom with its optional quantifier. -/
def parsePieceR : Nat → List Char → Option (Reg × List Char)
  | 0, _ => none
  | f + 1, s =>
    match parseAtomR f s with
    | some (a, rest) => parseQuant f a rest
    | none => none

/-- Read one atom: group, class, `.`, `^`, escape or literal. -/
def parseAtomR : Nat → List Char → Option (Reg × List Char)
  | 0, _ => none
  | f + 1, s =>
    match s with
    | [] => none
    | c :: t =>
      if c = Char.ofNat 40 then  -- (
        match parseAltR f t with
        | some (r, rest) =>
          match rest with
          | d :: t2 => if d = Char.ofNat 41 then some (r, t2) else none
          | [] => none
        | none => none
      else if c = Char.ofNat 91 then  -- [
        match t with
        | e :: t2 =>
          if e = Char.ofNat 94 then  -- negated class
            match parseClsItems f t2 with
            | some (items, rest) => some (.cls true items, rest)
            | none => none
          else
            match parseClsItems f t with
            | some (items, rest) => some (.cls false items, rest)
            | none => none
        | [] => none
      else if c = Char.ofNat 46 then some (.any, t)         -- .
      else if c = Char.ofNat 94 then some (.bol, t)         -- caret
      else if c = Char.ofNat 92 then                        -- backslash
        match t with
        | e :: t2 =>
          if e = Char.ofNat 98 then some (.wb, t2)          -- word boundary
          else if e = Char.ofNat 115 then some (.cls false [.space], t2)
          else if e = Char.ofNat 119 then some (.cls false [.word], t2)
          else if e = Char.ofNat 100 then some (.cls false [.digit], t2)
          else if e = Char.ofNat 110 then some (.lit (Char.ofNat 10), t2)
          else if e = Char.ofNat 116 then some (.lit (Char.ofNat 9), t2)
          else some (.lit e, t2)
        | [] => none
      else if c = Char.ofNat 42 || c = Char.ofNat 43 || c = Char.ofNat 63 ||
              c = Char.ofNat 123 || c = Char.ofNat 125 || c = Char.ofNat 41 ||
              c = Char.ofNat 124 || c = Char.ofNat 93 || c = Char.ofNat 36 then
        none  -- metacharacters not handled as atoms (unused by the source)
      else some (.lit c, t)

end

/-- Compile one of the source's pattern strings; `none` on a malformed
pattern (none of the source's patterns is malformed). -/
def parseReg (p : String) : Option Reg :=
  match parseAltR (4 * p.length + 16) p.data with
  | some (r, []) => some r
  | _ => none

/-- Does a pattern string match somewhere in the input, Python
`re.search(p, code, re.MULTILINE)`? -/
def reSearch (p : String) (code : List Char) : Bool :=
  match parseReg p with
  | some r => regSearch r code
  | none => false

/-! # Language detection (`TranslatorEngine.detect_language`) -/

/-- Python `str.strip()` on ASCII input: drop leading and trailing
whitespace. -/
def pyStrip (s : List Char) : List Char :=
  ((s.dropWhile isSpaceChar).reverse.dropWhile isSpaceChar).reverse

/-- The per-language pattern tables of `TranslatorEngine.detect_language`
(`translator_engine.py` lines 316–564), verbatim, in the source's dictionary
insertion order.  Braces, quotes and backticks are written with `\xNN`
escapes. -/
def languagePatterns : List (String × List String) := [
  ("Python", ["^\\s*def\\s+\\w+\\s*\\(",
    "^\\s*async\\s+def\\s+\\w+\\s*\\(",
    "^\\s*class\\s+\\w+[\\s\\(:)]",
    "^\\s*import\\s+\\w+",
    "^\\s*from\\s+\\w+\\s+import",
    "\\bprint\\s*\\(",
    "\\bprint\\s+[\\\"\x27]",
    "if\\s+__name__\\s*==\\s*[\\\"\x27]__main__[\\\"\x27]",
    "^\\s*elif\\s+",
    "^\\s*except[\\s:]",
    "[fF][\\\"\x27][^\\\"\x27]*\\\x7b[^\x7d]*\\\x7d",
    "\\[\\s*\\w+\\s+for\\s+\\w+\\s+in\\s+",
    "^\\s*@\\w+",
    "[\\\"\x27]\x7b3\x7d"]),
  ("JavaScript", ["\\bfunction\\s+\\w+\\s*\\(",
    "\\bfunction\\s*\\(",
    "=>\\s*\\\x7b",
    "=>\\s*[^\x7b]",
    "\\b(const|let|var)\\s+\\w+\\s*=",
    "\\bconsole\\.(log|error|warn|info)\\s*\\(",
    "\x60[^\x60]*\\$\\\x7b[^\x7d]*\\\x7d",
    "\\bexport\\s+(default\\s+)?",
    "\\bimport\\s+.*\\s+from\\s+[\\\"\x27]",
    "\\brequire\\s*\\([\\\"\x27]",
    "\\.(map|filter|reduce|forEach)\\s*\\(",
    "\\basync\\s+function",
    "\\bawait\\s+",
    "\\btypeof\\s+\\w+"]),
  ("Java", ["\\b(public|private|protected)\\s+(static\\s+)?class\\s+\\w+",
    "public\\s+static\\s+void\\s+main\\s*\\(\\s*String",
    "^\\s*import\\s+(static\\s+)?java\\.",
    "^\\s*package\\s+[\\w\\.]+;",
    "System\\.(out|err)\\.(print|println)\\s*\\(",
    "^\\s*@(Override|Deprecated|SuppressWarnings)",
    "\\b(extends|implements)\\s+\\w+",
    "\\bfinal\\s+\\w+",
    "\\bnew\\s+\\w+\\s*\\(",
    "<[A-Z]\\w*>",
    "\\b(try|catch|finally)\\s*\\\x7b",
    "\\bthrows\\s+\\w+"]),
  ("C++", ["^\\s*#include\\s*[<\\\"]",
    "\\busing\\s+namespace\\s+std\\s*;",
    "\\bnamespace\\s+\\w+\\s*\\\x7b",
    "\\bint\\s+main\\s*\\(",
    "\\bstd::(cout|cin|endl|string|vector)",
    "(cout|cerr)\\s*<<",
    "cin\\s*>>",
    "\\bclass\\s+\\w+\\s*[\\\x7b:]",
    "\\btemplate\\s*<",
    "::\\w+",
    "\\bvirtual\\s+",
    "\\boperator\\s*[+\\-*/=<>]+\\s*\\(",
    "\\w+\\s*\\*\\s*\\w+",
    "\\w+\\s*&\\s*\\w+"]),
  ("Go", ["^\\s*package\\s+\\w+",
    "^\\s*import\\s*\\(",
    "^\\s*import\\s+\\\"",
    "\\bfunc\\s+(\\(\\w+\\s+\\*?\\w+\\)\\s+)?\\w+\\s*\\(",
    "\\bfunc\\s+main\\s*\\(\\s*\\)",
    ":=",
    "\\bfmt\\.(Print|Printf|Println)\\s*\\(",
    "\\b(defer|go|chan|select)\\s+",
    "\\bif\\s+err\\s*!=\\s*nil\\s*\\\x7b",
    "\\btype\\s+\\w+\\s+struct\\s*\\\x7b",
    "\\btype\\s+\\w+\\s+interface\\s*\\\x7b"]),
  ("Rust", ["\\bfn\\s+\\w+\\s*\\(",
    "\\bfn\\s+main\\s*\\(\\s*\\)",
    "^\\s*use\\s+\\w+(::\\w+)*;",
    "\\b(println!|print!|eprintln!)\\s*\\(",
    "\\blet\\s+(mut\\s+)?\\w+",
    "\\bmatch\\s+\\w+\\s*\\\x7b",
    "\\bimpl\\s+\\w+",
    "\\bstruct\\s+\\w+",
    "\\benum\\s+\\w+",
    "\\btrait\\s+\\w+",
    "&mut\\s+",
    "\\bBox<",
    "\\bOption<",
    "\\bResult<",
    "^\\s*#\\[derive"]),
  ("Kotlin", ["\\bfun\\s+\\w+\\s*\\(",
    "\\bfun\\s+main\\s*\\(",
    "\\b(val|var)\\s+\\w+\\s*(:\\s*\\w+)?\\s*=",
    "\\b(data\\s+)?class\\s+\\w+",
    "\\bobject\\s+\\w+",
    "\\bwhen\\s*\\\x7b",
    "\\bwhen\\s*\\([^)]+\\)\\s*\\\x7b",
    "^\\s*package\\s+[\\w\\.]+",
    "^\\s*import\\s+[\\w\\.]+",
    "\\bprintln\\s*\\(",
    "\\bprint\\s*\\(",
    "\\?\\.",
    "\\?:",
    "!!\\.",
    "\\bsuspend\\s+fun",
    "\\blaunch\\s*\\\x7b",
    "\\basync\\s*\\\x7b",
    "\\bfun\\s+\\w+\\.\\w+\\s*\\("]),
  ("Swift", ["\\bfunc\\s+\\w+\\s*\\(",
    "\\b(let|var)\\s+\\w+\\s*(:\\s*\\w+)?\\s*=",
    "\\bclass\\s+\\w+",
    "\\bstruct\\s+\\w+",
    "\\benum\\s+\\w+",
    "\\bprotocol\\s+\\w+",
    "\\bguard\\s+",
    "\\bif\\s+let\\s+",
    "\\bswitch\\s+\\w+\\s*\\\x7b",
    "^\\s*import\\s+(Foundation|UIKit|SwiftUI)",
    "\\bprint\\s*\\(",
    "\\?\\?",
    "\\w+\\?",
    "\\w+!",
    "\\\x7b\\s*\\([^)]*\\)\\s+in",
    "\\$\\d+",
    "->\\s*\\w+"]),
  ("Ruby", ["\\bdef\\s+\\w+",
    "\\bend\\b",
    "\\bclass\\s+\\w+(\\s*<\\s*\\w+)?",
    "\\bmodule\\s+\\w+",
    "\\bputs\\s+",
    "\\bp\\s+",
    "\\brequire\\s+[\\\"\x27]",
    "\\brequire_relative\\s+",
    "\\bdo\\s*\\|[^|]*\\|",
    "\\\x7b\\s*\\|[^|]*\\|\\s*",
    "\\.each\\s+do",
    "\\.map\\s+do",
    ":\\w+",
    "@\\w+",
    "<<[-~]?\\w+",
    "\\.(select|reject|find|any\\?|all\\?)\\s*[\x7b\\(]"]),
  ("TypeScript", [":\\s*(string|number|boolean|any|void|never)\\b",
    ":\\s*\\w+\\[\\]",
    "<\\w+>",
    "\\binterface\\s+\\w+",
    "\\btype\\s+\\w+\\s*=",
    "\\bas\\s+\\w+",
    "\\breadonly\\s+\\w+",
    "\\bprivate\\s+\\w+",
    "\\bpublic\\s+\\w+",
    "\\bprotected\\s+\\w+",
    "\\bimport\\s+type\\s+",
    "\\bexport\\s+type\\s+",
    "<\\w+\\s+extends\\s+\\w+>",
    "\\benum\\s+\\w+",
    "^\\s*@\\w+"])
]

/-- Score of one language: the number of its patterns that match. -/
def scoreLang (pats : List String) (code : List Char) : Nat :=
  pats.countP (fun p => reSearch p code)

/-- The `scores` dictionary: `(language, score)` in table order. -/
def scoresOf (code : List Char) : List (String × Nat) :=
  languagePatterns.map (fun lp => (lp.1, scoreLang lp.2 code))

/-- The running maximum `max_score` (initial value 0). -/
def maxScoreOf (code : List Char) : Nat :=
  ((scoresOf code).map (fun p => p.2)).foldl max 0

/-- Python's `max(scores, key=scores.get)`: the first key (in dictionary
insertion order) whose score equals the maximum. -/
def firstMax (xs : List (String × Nat)) (m : Nat) : Option String :=
  (xs.find? (fun p => p.2 == m)).map (fun p => p.1)

/-- `sorted(values, reverse=True)`: insert into a descending list. -/
def insertDesc (x : Nat) : List Nat → List Nat
  | [] => [x]
  | y :: t => if y ≤ x then x :: y :: t else y :: insertDesc x t

/-- Sort a list of scores in descending order. -/
def sortDesc (l : List Nat) : List Nat := l.foldr insertDesc []

/-- `TranslatorEngine.detect_language` (lines 309–595): strip, score every
candidate against its pattern table, then apply the decision rule.  `none`
models Python's `None` (undetected). -/
def detectLanguage (code : String) : Option String :=
  let c := pyStrip code.data
  if c = [] then none
  else
    let scores := scoresOf c
    let maxScore := maxScoreOf c
    if maxScore > 0 then
      match firstMax scores maxScore with
      | some best =>
        if maxScore = 1 then
          if best = "Python" && reSearch ("\\bprint\\s*\\(") c then some "Python"
          else
            match sortDesc (scores.map (fun p => p.2)) with
            | a :: b :: _ => if b < a then some best else none
            | _ => none
        else some best
      | none => none
    else none

/-! # Circuit breaker (`provider_framework.py` lines 69–178)

Wall-clock times (`datetime.now()`) are modelled as integer parameters
threaded through each call; `recovery_timeout = timedelta(seconds=60)`
becomes the integer 60. -/

/-- `CircuitBreakerState`. -/
inductive CBState where
  | closed
  | isOpen
  | halfOpen
deriving Repr, DecidableEq

/-- `CircuitBreakerConfig` with the source's defaults. -/
structure CircuitBreakerConfig where
  failure_threshold : Nat := 5
  recovery_timeout : Int := 60
  success_threshold : Nat := 2
  half_open_max_requests : Nat := 3

/-- The mutable fields of a `CircuitBreaker`. -/
structure CircuitBreaker where
  state : CBState
  failure_count : Nat
  success_count : Nat
  last_failure_time : Option Int
  half_open_requests : Nat
deriving Repr, DecidableEq

/-- A freshly constructed breaker (`CircuitBreaker.__init__`). -/
def CircuitBreaker.init : CircuitBreaker :=
  { state := .closed, failure_count := 0, success_count := 0,
    last_failure_time := none, half_open_requests := 0 }

/-- `CircuitBreaker._can_execute`, which may itself move OPEN → HALF_OPEN
when the recovery timeout has elapsed; returns the admission decision and
the possibly updated breaker. -/
def CircuitBreaker.canExecute (cfg : CircuitBreakerConfig) (now : Int)
    (cb : CircuitBreaker) : Bool × CircuitBreaker :=
  match cb.state with
  | .closed => (true, cb)
  | .isOpen =>
    match cb.last_failure_time with
    | some t =>
      if now - t > cfg.recovery_timeout then
        (true, { cb with state := .halfOpen, half_open_requests := 0 })
      else (false, cb)
    | none => (false, cb)
  | .halfOpen => (decide (cb.half_open_requests < cfg.half_open_max_requests), cb)

/-- `CircuitBreaker._on_success`. -/
def CircuitBreaker.onSuccess (cfg : CircuitBreakerConfig)
    (cb : CircuitBreaker) : CircuitBreaker :=
  match cb.state with
  | .halfOpen =>
    let sc := cb.success_count + 1
    if cfg.success_threshold ≤ sc then
      { cb with state := .closed, failure_count := 0, success_count := 0 }
    else { cb with success_count := sc }
  | .closed => { cb with failure_count := 0 }
  | .isOpen => cb

/-- `CircuitBreaker._on_failure`. -/
def CircuitBreaker.onFailure (cfg : CircuitBreakerConfig) (now : Int)
    (cb : CircuitBreaker) : CircuitBreaker :=
  let cb := { cb with failure_count := cb.failure_count + 1,
                      last_failure_time := some now }
  match cb.state with
  | .closed =>
    if cfg.failure_threshold ≤ cb.failure_count then
      { cb with state := .isOpen }
    else cb
  | .halfOpen => { cb with state := .isOpen, success_count := 0 }
  | .isOpen => cb

/-- Outcome of `CircuitBreaker.call`: `rejected` is the breaker-open fault,
raised *without* invoking the wrapped function; `ran b` means the wrapped
function was invoked and succeeded (`b = true`) or raised (`b = false`). -/
inductive CallOutcome where
  | rejected
  | ran (success : Bool)
deriving Repr, DecidableEq

/-- `CircuitBreaker.call(func)`; the wrapped function's behaviour at this
invocation is the Boolean `outcome`. -/
def CircuitBreaker.call (cfg : CircuitBreakerConfig) (now : Int)
    (outcome : Bool) (cb : CircuitBreaker) : CallOutcome × CircuitBreaker :=
  let (ok, cb1) := cb.canExecute cfg now
  if !ok then (.rejected, cb1)
  else
    let cb2 :=
      if cb1.state = .halfOpen then
        { cb1 with half_open_requests := cb1.half_open_requests + 1 }
      else cb1
    if outcome then (.ran true, cb2.onSuccess cfg)
    else (.ran false, cb2.onFailure cfg now)

/-! # Provider metrics, chain and load balancer
(`provider_framework.py` lines 26–66, 458–569) -/

/-- `ProviderStatus`. -/
inductive ProviderStatus where
  | healthy
  | degraded
  | unhealthy
  | unknown
deriving Repr, DecidableEq

/-- The numeric fields of `ProviderMetrics` (latencies are rationals,
standing for the exact values of the source's float arithmetic). -/
structure ProviderMetrics where
  total_requests : Nat := 0
  successful_requests : Nat := 0
  failed_requests : Nat := 0
  total_latency : Rat := 0
deriving Repr, DecidableEq

/-- `ProviderMetrics.success_rate`. -/
def ProviderMetrics.success_rate (m : ProviderMetrics) : Rat :=
  if m.total_requests = 0 then 1
  else (m.successful_requests : Rat) / (m.total_requests : Rat)

/-- `ProviderMetrics.average_latency`. -/
def ProviderMetrics.average_latency (m : ProviderMetrics) : Rat :=
  if m.successful_requests = 0 then 0
  else m.total_latency / (m.successful_requests : Rat)

/-- The composite score of `ProviderChain.reorder_by_performance`:
`0.7 * success_rate + 0.3 * latency_score` with
`latency_score = 1 / (1 + avg_latency)` when `avg_latency > 0`, else 1. -/
def providerScore (m : ProviderMetrics) : Rat :=
  let s := m.success_rate
  let avg := m.average_latency
  let latencyScore : Rat := if 0 < avg then 1 / (1 + avg) else 1
  (7 : Rat) / 10 * s + (3 : Rat) / 10 * latencyScore

/-- The score of `LoadBalancer._best_performance`:
`success_rate - average_latency / 10`. -/
def performanceScore (m : ProviderMetrics) : Rat :=
  m.success_rate - m.average_latency / 10

/-- One provider as observed by `ProviderChain.execute` for a single chain
execution: its name, its health status, whether it has the requested
operation (`hasattr(provider, func_name)`), and the outcome
`execute_with_resilience` would produce for this call. -/
structure ChainProvider (ε α : Type) where
  name : String
  status : ProviderStatus
  hasMethod : Bool
  result : Except ε α

/-- `ProviderChain.execute` (lines 465–497): try each provider in order,
skipping those whose status is UNHEALTHY and those lacking the requested
operation; return the first success; collect `(provider.name, exception)`
for every tried-and-failed candidate; if no candidate succeeds, raise the
all-providers-failed fault carrying that list. -/
def chainExecute {ε α : Type} (ps : List (ChainProvider ε α)) :
    Except (List (String × ε)) α :=
  go ps []
where
  /-- The loop of `ProviderChain.execute` with the accumulated
  `exceptions` list. -/
  go : List (ChainProvider ε α) → List (String × ε) →
      Except (List (String × ε)) α
  | [], acc => .error acc
  | p :: rest, acc =>
    if p.status = .unhealthy then go rest acc
    else if !p.hasMethod then go rest acc
    else
      match p.result with
      | .ok r => .ok r
      | .error e => go rest (acc ++ [(p.name, e)])

/-- The skip-based reading of chain execution used by the specification:
filter out the skipped providers, return the first success among the
remaining candidates, otherwise fail with every candidate's
`(name, fault)`.  The skip predicate is a parameter so that both the
claim's wording (skip everything not healthy) and the source's behaviour
(skip only the unhealthy) can be expressed. -/
def specChainRun {ε α : Type} (skip : ChainProvider ε α → Bool)
    (ps : List (ChainProvider ε α)) : Except (List (String × ε)) α :=
  match (ps.filter (fun p => !skip p)).findSome?
      (fun p => p.result.toOption) with
  | some r => .ok r
  | none =>
    .error ((ps.filter (fun p => !skip p)).filterMap (fun p =>
      match p.result with
      | .error e => some (p.name, e)
      | .ok _ => none))

/-! # Translation engine (`translator_engine.py` lines 34–307)

The engine's environment bundles the opaque collaborators: Python's
built-in `hash`, the three remote AI clients (as result-valued functions),
the offline translator's rule pipeline for distinct languages, and which
API keys are configured. -/

/-- `TranslationProvider`. -/
inductive TranslationProvider where
  | openai
  | anthropic
  | google
  | offline
deriving Repr, DecidableEq

/-- `TranslatorEngine.SUPPORTED_LANGUAGES`. -/
def SUPPORTED_LANGUAGES : List String :=
  ["Python", "JavaScript", "TypeScript", "Java", "Kotlin", "Swift",
   "C++", "Go", "Rust", "Ruby"]

/-- The opaque collaborators of `TranslatorEngine`. -/
structure EngineEnv where
  /-- Python's built-in `hash` on strings. -/
  hashF : String → Int
  /-- Behaviour of `_translate_openai` / `_translate_anthropic` /
  `_translate_google` for this call: the translated text and confidence,
  or the exception it raises. -/
  aiResult : TranslationProvider → String → String → String →
    Except Unit (String × Rat)
  /-- `OfflineTranslator.translate` for `source_lang ≠ target_lang`
  (the rule pipeline of `offline_translator.py` lines 185–227). -/
  offlineRest : String → String → String → String
  /-- Which remote providers were initialised (`self.providers`). -/
  hasOpenai : Bool
  hasAnthropic : Bool
  hasGoogle : Bool

/-- `OfflineTranslator.translate` (lines 180–227): identical languages
short-circuit to the unchanged input; otherwise the rule pipeline runs. -/
def offlineTranslate (env : EngineEnv) (code source_lang target_lang : String) :
    String :=
  if source_lang = target_lang then code
  else env.offlineRest code source_lang target_lang

/-- `TranslatorEngine._translate_offline` (lines 301–307): offline text
with confidence 0.7. -/
def translateOffline (env : EngineEnv) (code source_lang target_lang : String) :
    String × Rat :=
  (offlineTranslate env code source_lang target_lang, (7 : Rat) / 10)

/-- `TranslatorEngine._select_best_provider` (lines 173–187): first of
ANTHROPIC, OPENAI, GOOGLE, OFFLINE that is configured (OFFLINE always is). -/
def selectBestProvider (env : EngineEnv) : TranslationProvider :=
  if env.hasAnthropic then .anthropic
  else if env.hasOpenai then .openai
  else if env.hasGoogle then .google
  else .offline

/-- `TranslatorEngine._translate_with_provider` (lines 189–201). -/
def translateWithProvider (env : EngineEnv)
    (code source_lang target_lang : String) (p : TranslationProvider) :
    Except Unit (String × Rat) :=
  match p with
  | .openai => env.aiResult .openai code source_lang target_lang
  | .anthropic => env.aiResult .anthropic code source_lang target_lang
  | .google => env.aiResult .google code source_lang target_lang
  | .offline => .ok (translateOffline env code source_lang target_lang)

/-- The translation cache `self._cache`, a Python dict in insertion order. -/
abbrev TxCache := List (String × String)

/-- The cache key `f"{source_lang}:{target_lang}:{hash(code)}"`. -/
def cacheKey (env : EngineEnv) (source_lang target_lang code : String) : String :=
  source_lang ++ ":" ++ target_lang ++ ":" ++ toString (env.hashF code)

/-- Python dict assignment `d[k] = v` on an insertion-ordered dict:
replace the value in place when the key is present, else append. -/
def pyDictSet {β : Type} (d : List (String × β)) (k : String) (v : β) :
    List (String × β) :=
  if d.any (fun p => p.1 = k) then
    d.map (fun p => if p.1 = k then (k, v) else p)
  else d ++ [(k, v)]

/-- Python dict lookup: `d[k]` when `k in d`, `none` otherwise. -/
def lookupKey {β : Type} : List (String × β) → String → Option β
  | [], _ => none
  | (a, b) :: t, k => if k = a then some b else lookupKey t k

/-- Failures of `translate_async`: the two `ValueError`s raised for
unsupported languages, and the propagated provider exception when the
chosen provider was already OFFLINE. -/
inductive TxErr where
  | unsupportedSource
  | unsupportedTarget
  | providerFailed
deriving Repr, DecidableEq

/-- `TranslatorEngine.translate_async` (lines 109–154): cache probe,
language validation, provider selection, translation, cache insertion with
the over-capacity pop of the first (oldest-inserted) key, and the one-shot
offline fallback.  Returns the result and the updated cache. -/
def translateAsync (env : EngineEnv) (cache : TxCache)
    (code source_lang target_lang : String)
    (provider : Option TranslationProvider) :
    Except TxErr (String × Rat) × TxCache :=
  let key := cacheKey env source_lang target_lang code
  match lookupKey cache key with
  | some txt => (.ok (txt, 1), cache)
  | none =>
    if ¬ source_lang ∈ SUPPORTED_LANGUAGES then (.error .unsupportedSource, cache)
    else if ¬ target_lang ∈ SUPPORTED_LANGUAGES then (.error .unsupportedTarget, cache)
    else
      let p := provider.getD (selectBestProvider env)
      match translateWithProvider env code source_lang target_lang p with
      | .ok (txt, conf) =>
        let c1 := pyDictSet cache key txt
        let c2 := if 100 < c1.length then c1.tail else c1
        (.ok (txt, conf), c2)
      | .error _ =>
        if p ≠ .offline then
          (.ok (translateOffline env code source_lang target_lang), cache)
        else (.error .providerFailed, cache)

/-! # Configuration manager (`config_manager.py`)

Configuration values are Python scalars; floats appear in the source only
as exact decimal constants and are modelled as rationals.  `json.dumps(...,
sort_keys=True)`, SHA-256 and Fernet encryption are opaque parameters. -/

/-- A configuration value. -/
inductive CVal where
  | vStr (s : String)
  | vInt (n : Int)
  | vFloat (q : Rat)
  | vBool (b : Bool)
deriving Repr, DecidableEq

/-- A configuration record: a Python dict in insertion order. -/
abbrev Config := List (String × CVal)

/-- Python truthiness of a configuration value. -/
def cvalTruthy : CVal → Bool
  | .vStr s => s ≠ ""
  | .vInt n => n ≠ 0
  | .vFloat q => q ≠ 0
  | .vBool b => b

/-- The scalar types named by schema entries (`float`, `str`, `bool`,
`int`). -/
inductive CType where
  | tStr
  | tInt
  | tFloat
  | tBool
deriving Repr, DecidableEq

/-- Python `isinstance(value, expected_type)`; note `bool` is a subtype of
`int` in Python, so a Boolean passes an `int` check. -/
def cvalIsInstance : CVal → CType → Bool
  | .vStr _, .tStr => true
  | .vInt _, .tInt => true
  | .vBool _, .tInt => true
  | .vFloat _, .tFloat => true
  | .vBool _, .tBool => true
  | _, _ => false

/-- Numeric view of a value (`bool` counts as 0/1, as in Python). -/
def cvalNum : CVal → Option Rat
  | .vInt n => some (n : Rat)
  | .vFloat q => some q
  | .vBool b => some (if b then 1 else 0)
  | .vStr _ => none

/-- Python `a < b` on scalars: defined for two numbers or two strings,
a `TypeError` (`none`) otherwise. -/
def cvalLt (a b : CVal) : Option Bool :=
  match cvalNum a, cvalNum b with
  | some x, some y => some (decide (x < y))
  | _, _ =>
    match a, b with
    | .vStr x, .vStr y => some (decide (x < y))
    | _, _ => none

/-- Python `a == b` on scalars (numbers compare across `int`/`float`/`bool`;
a string never equals a number). -/
def cvalEq (a b : CVal) : Bool :=
  match cvalNum a, cvalNum b with
  | some x, some y => x == y
  | _, _ =>
    match a, b with
    | .vStr x, .vStr y => x == y
    | _, _ => false

/-- One schema entry (`fields[name]` in `ConfigSchema`): declared type,
bounds, enumeration and the sensitive flag.  Field names: `ctype` is the
`"type"` key, `minv`/`maxv` are `"min"`/`"max"`, `enumv` is `"enum"`,
`encrypted` is `"encrypted"`. -/
structure FieldSpec where
  ctype : Option CType := none
  minv : Option CVal := none
  maxv : Option CVal := none
  enumv : Option (List CVal) := none
  encrypted : Bool := false

/-- `ConfigSchema` (dataclass): version, field specs in declaration order,
required field names. -/
structure ConfigSchema where
  version : String
  fields : List (String × FieldSpec)
  required : List String

/-- The validation errors produced by `ConfigSchema.validate`; each
constructor stands for the corresponding message string appended by the
source (the message text itself is not modelled). -/
inductive VErr where
  | requiredMissing (f : String)
  | wrongType (f : String)
  | belowMin (f : String)
  | aboveMax (f : String)
  | notInEnum (f : String)
deriving Repr, DecidableEq

/-- The errors contributed by one present field, in source order (type,
min, max, enum).  `.error ()` is the uncaught Python `TypeError` raised by
an unsupported `<` comparison (the source compares `value` against the
bound whether or not the type check passed, and the min comparison runs
before the max comparison). -/
def fieldErrors (fname : String) (spec : FieldSpec) (v : CVal) :
    Except Unit (List VErr) :=
  let e1 :=
    match spec.ctype with
    | some ty => if cvalIsInstance v ty then [] else [VErr.wrongType fname]
    | none => []
  let r2 : Except Unit (List VErr) :=
    match spec.minv with
    | some m =>
      match cvalLt v m with
      | some b => .ok (if b then [VErr.belowMin fname] else [])
      | none => .error ()
    | none => .ok []
  let r3 : Except Unit (List VErr) :=
    match spec.maxv with
    | some m =>
      match cvalLt m v with
      | some b => .ok (if b then [VErr.aboveMax fname] else [])
      | none => .error ()
    | none => .ok []
  let e4 :=
    match spec.enumv with
    | some vs => if vs.any (cvalEq v) then [] else [VErr.notInEnum fname]
    | none => []
  match r2 with
  | .error u => .error u
  | .ok e2 =>
    match r3 with
    | .error u => .error u
    | .ok e3 => .ok (e1 ++ e2 ++ e3 ++ e4)

/-- The field loop of `ConfigSchema.validate`. -/
def validateFields (fields : List (String × FieldSpec)) (d : Config) :
    Except Unit (List VErr) :=
  match fields with
  | [] => .ok []
  | (fname, spec) :: rest =>
    match
      (match lookupKey d fname with
       | some v => fieldErrors fname spec v
       | none => .ok []) with
    | .error u => .error u
    | .ok here =>
      match validateFields rest d with
      | .error u => .error u
      | .ok there => .ok (here ++ there)

/-- `ConfigSchema.validate` (lines 66–101): required-field errors first,
then the per-field checks. -/
def ConfigSchema.validate (sch : ConfigSchema) (d : Config) :
    Except Unit (List VErr) :=
  let reqErrs := sch.required.filterMap (fun f =>
    if (lookupKey d f).isNone then some (VErr.requiredMissing f) else none)
  match validateFields sch.fields d with
  | .error u => .error u
  | .ok fieldErrs => .ok (reqErrs ++ fieldErrs)

/-- `ConfigurationManager.DEFAULT_SCHEMA` (lines 404–438). -/
def DEFAULT_SCHEMA : ConfigSchema :=
  { version := "2.0.0",
    fields := [
      ("window_opacity",
        { ctype := some .tFloat, minv := some (.vFloat ((1 : Rat) / 10)),
          maxv := some (.vFloat 1) }),
      ("theme",
        { ctype := some .tStr,
          enumv := some [.vStr "light", .vStr "dark", .vStr "auto"] }),
      ("start_minimized", { ctype := some .tBool }),
      ("auto_detect_language", { ctype := some .tBool }),
      ("save_history", { ctype := some .tBool }),
      ("history_limit",
        { ctype := some .tInt, minv := some (.vInt 0),
          maxv := some (.vInt 10000) }),
      ("font_size",
        { ctype := some .tInt, minv := some (.vInt 8),
          maxv := some (.vInt 72) }),
      ("show_line_numbers", { ctype := some .tBool }),
      ("word_wrap", { ctype := some .tBool }),
      ("preferred_provider",
        { ctype := some .tStr,
          enumv := some [.vStr "auto", .vStr "openai", .vStr "anthropic",
            .vStr "google", .vStr "offline"] }),
      ("translation_timeout",
        { ctype := some .tInt, minv := some (.vInt 5),
          maxv := some (.vInt 300) }),
      ("openai_api_key", { ctype := some .tStr, encrypted := true }),
      ("anthropic_api_key", { ctype := some .tStr, encrypted := true }),
      ("google_api_key", { ctype := some .tStr, encrypted := true }),
      ("copy_on_translate", { ctype := some .tBool }),
      ("clear_output_on_input_change", { ctype := some .tBool }),
      ("cache_translations", { ctype := some .tBool }),
      ("max_cache_size",
        { ctype := some .tInt, minv := some (.vInt 0),
          maxv := some (.vInt 1000) }),
      ("log_level",
        { ctype := some .tStr,
          enumv := some [.vStr "DEBUG", .vStr "INFO", .vStr "WARNING",
            .vStr "ERROR", .vStr "CRITICAL"] })],
    required := ["theme", "font_size"] }

/-- `ConfigurationManager._get_defaults` (lines 658–689). -/
def getDefaults : Config :=
  [("window_opacity", .vFloat ((95 : Rat) / 100)),
   ("theme", .vStr "dark"),
   ("start_minimized", .vBool false),
   ("auto_detect_language", .vBool true),
   ("save_history", .vBool true),
   ("history_limit", .vInt 100),
   ("font_size", .vInt 11),
   ("show_line_numbers", .vBool true),
   ("word_wrap", .vBool false),
   ("preferred_provider", .vStr "auto"),
   ("translation_timeout", .vInt 30),
   ("openai_api_key", .vStr ""),
   ("anthropic_api_key", .vStr ""),
   ("google_api_key", .vStr ""),
   ("copy_on_translate", .vBool false),
   ("clear_output_on_input_change", .vBool true),
   ("cache_translations", .vBool true),
   ("max_cache_size", .vInt 100),
   ("log_level", .vStr "INFO")]

/-- Apply `SecureCredentialManager.encrypt` to a stored value (the source
only encrypts string credentials). -/
def encCVal (enc : String → String) : CVal → CVal
  | .vStr s => .vStr (enc s)
  | v => v

/-- `ConfigurationManager._encrypt_sensitive_fields` (lines 555–566):
every schema field flagged `encrypted` that is present with a truthy value
is replaced by its encryption. -/
def encryptSensitiveFields (sch : ConfigSchema) (enc : String → String)
    (d : Config) : Config :=
  sch.fields.foldl (fun acc f =>
    if f.2.encrypted then
      match lookupKey acc f.1 with
      | some v => if cvalTruthy v then pyDictSet acc f.1 (encCVal enc v) else acc
      | none => acc
    else acc) d

/-- `ConfigurationManager._calculate_checksum` (lines 581–589):
`hash (serialize (data minus the "_checksum" key))`, where `serialize`
stands for `json.dumps(..., sort_keys=True)` and `hash` for the SHA-256
hex digest. -/
def calculateChecksum (serialize : Config → String) (hash : String → String)
    (d : Config) : String :=
  hash (serialize (d.filter (fun p => ¬ p.1 = "_checksum")))

/-- `ConfigurationManager._save` (lines 533–553): encrypt the sensitive
fields, stamp the integrity checksum, and hand the record to the storage
adapter.  The returned record is the file content written to disk. -/
def configSave (serialize : Config → String) (hash enc : String → String)
    (sch : ConfigSchema) (d : Config) : Config :=
  let saveData := encryptSensitiveFields sch enc d
  pyDictSet saveData "_checksum"
    (.vStr (calculateChecksum serialize hash saveData))

/-- Failures of the persisting operations: `SchemaValidationError`, or an
uncaught `TypeError` escaping `ConfigSchema.validate`. -/
inductive CfgErr where
  | schemaValidation
  | typeError
deriving Repr, DecidableEq

/-- `ConfigurationManager.set` (lines 733–746): validate the updated view
when the key is in the schema, then assign and save.  Returns the new
in-memory record and the file written by `_save`. -/
def configSet (serialize : Config → String) (hash enc : String → String)
    (sch : ConfigSchema) (d : Config) (key : String) (v : CVal) :
    Except CfgErr (Config × Config) :=
  let d2 := pyDictSet d key v
  if (lookupKey sch.fields key).isSome then
    match sch.validate d2 with
    | .error () => .error .typeError
    | .ok errs =>
      if errs = [] then .ok (d2, configSave serialize hash enc sch d2)
      else .error .schemaValidation
  else .ok (d2, configSave serialize hash enc sch d2)

/-- `ConfigurationManager.update` (lines 756–769): validate the merged
view before applying anything. -/
def configUpdate (serialize : Config → String) (hash enc : String → String)
    (sch : ConfigSchema) (d : Config) (updates : List (String × CVal)) :
    Except CfgErr (Config × Config) :=
  let d2 := updates.foldl (fun acc kv => pyDictSet acc kv.1 kv.2) d
  match sch.validate d2 with
  | .error () => .error .typeError
  | .ok errs =>
    if errs = [] then .ok (d2, configSave serialize hash enc sch d2)
    else .error .schemaValidation

/-- `ConfigTransaction.commit` (lines 134–151): apply every change, then
save; no validation happens on this path. -/
def txCommit (serialize : Config → String) (hash enc : String → String)
    (sch : ConfigSchema) (d : Config) (changes : List (String × CVal)) :
    Config × Config :=
  let d2 := changes.foldl (fun acc kv => pyDictSet acc kv.1 kv.2) d
  (d2, configSave serialize hash enc sch d2)

/-- `ConfigurationManager.reset` (lines 847–853): defaults, version stamp,
save. -/
def configReset (serialize : Config → String) (hash enc : String → String)
    (sch : ConfigSchema) : Config × Config :=
  let d2 := pyDictSet getDefaults "_schema_version" (.vStr sch.version)
  (d2, configSave serialize hash enc sch d2)

/-- `ConfigurationManager.import_config` (lines 813–845).  `merge = true`
validates the merged view and keeps it; `merge = false` (replace mode)
validates the imported record alone, then installs it with a fresh version
stamp.  Validation precedes every mutation. -/
def configImport (serialize : Config → String) (hash enc : String → String)
    (sch : ConfigSchema) (d : Config) (importData : Config) (merge : Bool) :
    Except CfgErr (Config × Config) :=
  if merge then
    let d2 := importData.foldl (fun acc kv => pyDictSet acc kv.1 kv.2) d
    match sch.validate d2 with
    | .error () => .error .typeError
    | .ok errs =>
      if errs = [] then .ok (d2, configSave serialize hash enc sch d2)
      else .error .schemaValidation
  else
    match sch.validate importData with
    | .error () => .error .typeError
    | .ok errs =>
      if errs = [] then
        let d2 := pyDictSet importData "_schema_version" (.vStr sch.version)
        .ok (d2, configSave serialize hash enc sch d2)
      else .error .schemaValidation

/-! # Big-O estimation (`complexity.py` lines 432–498) -/

/-- `BigO` (the `Enum` of `complexity.py`). -/
inductive BigO where
  | O_1
  | O_LOG_N
  | O_N
  | O_N_LOG_N
  | O_N_SQUARED
  | O_N_CUBED
  | O_2_N
  | O_N_FACTORIAL
  | UNKNOWN
deriving Repr, DecidableEq, BEq

/-- `ComplexityAnalyzer._estimate_big_o` (lines 432–479), phrased over the
signals the source computes from its regex scans: the nested-loop count,
the loop count, and the recursion / sort / binary-search flags. -/
def estimateBigO (loop_count : Nat) (has_recursion : Bool)
    (nested_loops : Nat) (has_sort has_binary_search : Bool) : BigO :=
  if has_recursion ∧ 0 < nested_loops then .O_2_N
  else if 2 ≤ nested_loops then .O_N_CUBED
  else if nested_loops = 1 then .O_N_SQUARED
  else if has_sort then .O_N_LOG_N
  else if has_binary_search then .O_LOG_N
  else if 1 ≤ loop_count then .O_N
  else if has_recursion then .O_N
  else .O_1

/-- The `complexity_order` list of `_estimate_overall_big_o`. -/
def complexityOrder : List BigO :=
  [.O_1, .O_LOG_N, .O_N, .O_N_LOG_N, .O_N_SQUARED, .O_N_CUBED, .O_2_N,
   .O_N_FACTORIAL]

/-- `complexity_order.index(b)`. -/
def rankOf (b : BigO) : Nat := complexityOrder.indexOf b

/-- `ComplexityAnalyzer._estimate_overall_big_o` (lines 481–498): the
worst non-UNKNOWN estimate under `complexity_order`, starting from O(1). -/
def estimateOverallBigO (fs : List BigO) : BigO :=
  fs.foldl (fun worst f =>
    if f ≠ .UNKNOWN ∧ rankOf worst < rankOf f then f else worst) .O_1


/-! # Helper lemmas about Python-style dicts -/

theorem lookup_map_replace {β : Type} (d : List (String × β)) (k : String)
    (v : β) :
    lookupKey (d.map (fun p => if p.1 = k then (k, v) else p)) k =
      if d.any (fun p => p.1 = k) then some v else none := by
  induction d with
  | nil => rfl
  | cons p t ih =>
    rcases p with ⟨a, b⟩
    rw [List.map_cons]
    by_cases hak : a = k
    · subst hak
      rw [if_pos (show (a, b).1 = a from rfl)]
      rw [lookupKey, if_pos rfl]
      have hcons : ((((a, b) :: t).any (fun p => p.1 = a)) = true) := by simp
      rw [hcons]
      simp
    · rw [if_neg hak]
      rw [lookupKey, if_neg (Ne.symm hak), ih]
      have hcons : (((a, b) :: t).any (fun p => p.1 = k))
          = (t.any (fun p => p.1 = k)) := by simp [hak]
      rw [hcons]

theorem lookup_append_of_not_any {β : Type} (d l : List (String × β))
    (k : String) (h : d.any (fun p => p.1 = k) = false) :
    lookupKey (d ++ l) k = lookupKey l k := by
  induction d with
  | nil => rfl
  | cons p t ih =>
    rcases p with ⟨a, b⟩
    simp only [List.any_cons, Bool.or_eq_false_iff,
      decide_eq_false_iff_not] at h
    rw [List.cons_append, lookupKey, if_neg (Ne.symm h.1)]
    exact ih h.2

theorem lookup_none_any {β : Type} (d : List (String × β)) (k : String)
    (h : lookupKey d k = none) : d.any (fun p => p.1 = k) = false := by
  induction d with
  | nil => rfl
  | cons p t ih =>
    rcases p with ⟨a, b⟩
    rw [lookupKey] at h
    by_cases hk : k = a
    · simp [hk] at h
    · rw [if_neg hk] at h
      simp only [List.any_cons, Bool.or_eq_false_iff,
        decide_eq_false_iff_not]
      exact ⟨Ne.symm hk, ih h⟩

theorem pyDictSet_lookup_self {β : Type} (d : List (String × β)) (k : String)
    (v : β) : lookupKey (pyDictSet d k v) k = some v := by
  unfold pyDictSet
  split
  · rename_i h
    rw [lookup_map_replace, h]
    simp
  · rename_i h
    rw [Bool.not_eq_true] at h
    rw [lookup_append_of_not_any _ _ _ h, lookupKey, if_pos rfl]

theorem pyDictSet_of_lookup_none {β : Type} (d : List (String × β))
    (k : String) (v : β) (h : lookupKey d k = none) :
    pyDictSet d k v = d ++ [(k, v)] := by
  unfold pyDictSet
  rw [lookup_none_any d k h]
  simp

theorem pyDictSet_filter_ne {β : Type} (d : List (String × β)) (k : String)
    (v : β) :
    (pyDictSet d k v).filter (fun p => ¬ p.1 = k) =
      d.filter (fun p => ¬ p.1 = k) := by
  unfold pyDictSet
  split
  · rename_i h
    clear h
    induction d with
    | nil => rfl
    | cons p t ih =>
      rcases p with ⟨a, b⟩
      rw [List.map_cons]
      by_cases hak : a = k
      · subst hak
        rw [if_pos (show (a, b).1 = a from rfl)]
        rw [List.filter_cons, List.filter_cons]
        simp only [show (decide ¬((a, v) : String × β).1 = a) = false by simp,
          show (decide ¬((a, b) : String × β).1 = a) = false by simp,
          Bool.false_eq_true, if_false]
        exact ih
      · rw [if_neg hak]
        rw [List.filter_cons, List.filter_cons]
        have h1 : (decide ¬((a, b) : String × β).1 = k) = true := by
          simp [hak]
        rw [h1]
        simp only [if_true]
        rw [ih]
  · rw [List.filter_append]
    have h1 : (decide ¬((k, v) : String × β).1 = k) = false := by simp
    simp [List.filter_cons, h1]

/-! # Claim theorems -/

/-- The default circuit-breaker configuration (`CircuitBreakerConfig()`). -/
def defaultCBConfig : CircuitBreakerConfig := {}

/-- Fold consecutive failing calls through a fresh breaker. -/
def cbFails (ts : List Int) : CircuitBreaker :=
  ts.foldl (fun cb t => (cb.call defaultCBConfig t false).2) .init

set_option maxHeartbeats 2000000 in
/-- C1.  With default parameters, each of the first four consecutive
CLOSED-state failures is admitted (the underlying fault surfaces) and
increments the failure counter; the 5th consecutive failure is admitted
and moves the breaker to OPEN, recording the transition time; the next
call is rejected with the breaker-open fault without invoking the wrapped
function unless more than the 60-second recovery timeout has elapsed since
the transition, in which case the breaker moves to HALF_OPEN and admits
(invokes) that call. -/
theorem claim_C1_circuit_breaker (t1 t2 t3 t4 t5 t6 : Int) (o : Bool) :
    ((CircuitBreaker.init.call defaultCBConfig t1 false).1 = .ran false)
    ∧ cbFails [t1] = ⟨.closed, 1, 0, some t1, 0⟩
    ∧ cbFails [t1, t2] = ⟨.closed, 2, 0, some t2, 0⟩
    ∧ cbFails [t1, t2, t3] = ⟨.closed, 3, 0, some t3, 0⟩
    ∧ cbFails [t1, t2, t3, t4] = ⟨.closed, 4, 0, some t4, 0⟩
    ∧ ((cbFails [t1, t2, t3, t4]).call defaultCBConfig t5 false).1 = .ran false
    ∧ cbFails [t1, t2, t3, t4, t5] = ⟨.isOpen, 5, 0, some t5, 0⟩
    ∧ (¬ (60 : Int) < t6 - t5 →
        (cbFails [t1, t2, t3, t4, t5]).call defaultCBConfig t6 o =
          (.rejected, cbFails [t1, t2, t3, t4, t5]))
    ∧ ((60 : Int) < t6 - t5 →
        ((cbFails [t1, t2, t3, t4, t5]).canExecute defaultCBConfig t6).2.state
            = .halfOpen
        ∧ ((cbFails [t1, t2, t3, t4, t5]).call defaultCBConfig t6 o).1 = .ran o) := by
  have h5 : cbFails [t1, t2, t3, t4, t5] =
      (⟨.isOpen, 5, 0, some t5, 0⟩ : CircuitBreaker) := rfl
  refine ⟨rfl, rfl, rfl, rfl, rfl, rfl, rfl, ?_, ?_⟩
  · intro h
    have hce : CircuitBreaker.canExecute defaultCBConfig t6
        ⟨.isOpen, 5, 0, some t5, 0⟩ =
        (false, ⟨.isOpen, 5, 0, some t5, 0⟩) := by
      simp [CircuitBreaker.canExecute, defaultCBConfig, h]
    rw [h5]
    unfold CircuitBreaker.call
    rw [hce]
    rfl
  · intro h
    have hce : CircuitBreaker.canExecute defaultCBConfig t6
        ⟨.isOpen, 5, 0, some t5, 0⟩ =
        (true, ⟨.halfOpen, 5, 0, some t5, 0⟩) := by
      simp [CircuitBreaker.canExecute, defaultCBConfig, h]
    constructor
    · rw [h5, hce]
    · rw [h5]
      unfold CircuitBreaker.call
      rw [hce]
      cases o <;> rfl

/-- Witness for C1 at concrete times: five failures at time 0, then one
call at time 30 (rejected, breaker unchanged) and one at time 100
(admitted through HALF_OPEN). -/
theorem claim_C1_circuit_breaker_witness :
    ((cbFails [0, 0, 0, 0, 0]).call defaultCBConfig 30 true =
      (.rejected, cbFails [0, 0, 0, 0, 0]))
    ∧ ((cbFails [0, 0, 0, 0, 0]).call defaultCBConfig 100 true).1 = .ran true := by
  refine ⟨?_, ?_⟩
  · exact (claim_C1_circuit_breaker 0 0 0 0 0 30 true).2.2.2.2.2.2.2.1 (by decide)
  · exact ((claim_C1_circuit_breaker 0 0 0 0 0 100 true).2.2.2.2.2.2.2.2
      (by decide)).2

/-- C3.  Every translation cache hit on key
`(source_lang, target_lang, hash(code))` returns the text stored under
that key with confidence 1.0 and leaves the cache unchanged. -/
theorem claim_C3_cache_hit (env : EngineEnv) (cache : TxCache)
    (code source_lang target_lang : String)
    (provider : Option TranslationProvider) (txt : String)
    (h : lookupKey cache (cacheKey env source_lang target_lang code) = some txt) :
    translateAsync env cache code source_lang target_lang provider =
      (.ok (txt, 1), cache) := by
  simp only [translateAsync, h]

/-- A concrete environment: `hash ≡ 0`, every remote provider raises, the
offline rule pipeline echoes its input, no API keys configured. -/
def witnessEnv : EngineEnv :=
  { hashF := fun _ => 0, aiResult := fun _ _ _ _ => .error (),
    offlineRest := fun c _ _ => c, hasOpenai := false, hasAnthropic := false,
    hasGoogle := false }

/-- Witness for C3: a one-entry cache, a hit, the stored text with
confidence 1.0. -/
theorem claim_C3_cache_hit_witness :
    translateAsync witnessEnv [("Python:JavaScript:0", "out")] "c" "Python"
      "JavaScript" none = (.ok ("out", 1), [("Python:JavaScript:0", "out")]) :=
  claim_C3_cache_hit witnessEnv [("Python:JavaScript:0", "out")] "c" "Python"
    "JavaScript" none "out" (by decide)

/-- C6 counterexample: an offline same-language translation on a cache
miss returns the input unchanged but with confidence 0.7, not the
claimed 1.0. -/
theorem claim_C6_counterexample :
    (translateAsync witnessEnv [] "x" "Python" "Python" (some .offline)).1 =
      .ok ("x", (7 : Rat) / 10)
    ∧ ¬ ((7 : Rat) / 10 = (1 : Rat)) := by
  constructor
  · rfl
  · norm_num

/-- C6 as amended: for every supported language `L` and every code string
whose key is not in the cache, translating with
`source_lang = target_lang = L` through the offline provider returns the
input code unchanged with confidence 0.7. -/
theorem claim_C6_offline_identity (env : EngineEnv) (cache : TxCache)
    (code L : String) (hL : L ∈ SUPPORTED_LANGUAGES)
    (hmiss : lookupKey cache (cacheKey env L L code) = none) :
    (translateAsync env cache code L L (some .offline)).1 =
      .ok (code, (7 : Rat) / 10) := by
  simp only [translateAsync, hmiss, if_neg (not_not_intro hL),
    Option.getD_some, translateWithProvider, translateOffline,
    offlineTranslate, if_pos rfl, if_true, eq_self_iff_true]

/-- Witness for C6 as amended, at a concrete language and input. -/
theorem claim_C6_offline_identity_witness :
    (translateAsync witnessEnv [] "x" "Python" "Python" (some .offline)).1 =
      .ok ("x", (7 : Rat) / 10) :=
  claim_C6_offline_identity witnessEnv [] "x" "Python" (by decide) (by rfl)

/-- C4 as amended: on a cache miss with supported languages and a
successful provider result, the new entry is appended; when the insertion
pushes the cache over the capacity of 100, the evicted entry is the
first (oldest-inserted) one, and the cache stays bounded by 100. -/
theorem claim_C4_fifo_eviction (env : EngineEnv) (cache : TxCache)
    (code source_lang target_lang : String) (p : TranslationProvider)
    (txt : String) (conf : Rat)
    (hmiss : lookupKey cache (cacheKey env source_lang target_lang code) = none)
    (hs : source_lang ∈ SUPPORTED_LANGUAGES)
    (ht : target_lang ∈ SUPPORTED_LANGUAGES)
    (hok : translateWithProvider env code source_lang target_lang p =
      .ok (txt, conf)) :
    (100 ≤ cache.length →
      (translateAsync env cache code source_lang target_lang (some p)).2 =
        cache.tail ++ [(cacheKey env source_lang target_lang code, txt)])
    ∧ (cache.length ≤ 100 →
      (translateAsync env cache code source_lang target_lang (some p)).2.length
        ≤ 100) := by
  have hpd : pyDictSet cache (cacheKey env source_lang target_lang code) txt
      = cache ++ [(cacheKey env source_lang target_lang code, txt)] :=
    pyDictSet_of_lookup_none _ _ _ hmiss
  simp only [translateAsync, hmiss, if_neg (not_not_intro hs),
    if_neg (not_not_intro ht), Option.getD_some, hok, hpd]
  constructor
  · intro hlen
    have hgt : 100 <
        (cache ++ [(cacheKey env source_lang target_lang code, txt)]).length := by
      simp
      omega
    rw [if_pos hgt]
    cases cache with
    | nil => simp at hlen
    | cons a t => rfl
  · intro hlen
    by_cases hgt : 100 <
        (cache ++ [(cacheKey env source_lang target_lang code, txt)]).length
    · rw [if_pos hgt]
      cases cache with
      | nil => simp
      | cons a t =>
        simp only [List.length_append] at hgt ⊢
        simp only [List.length_cons, List.length_singleton] at *
        simp
        omega
    · rw [if_neg hgt]
      simp only [List.length_append, List.length_singleton] at hgt ⊢
      omega

/-- A 100-entry cache with keys distinct from any engine cache key. -/
def c4WitnessCache : TxCache := (List.range 100).map (fun i => (toString i, "v"))

/-- Witness for C4 as amended: inserting into a full 100-entry cache
evicts its first entry and keeps the bound. -/
theorem claim_C4_fifo_eviction_witness :
    (translateAsync witnessEnv c4WitnessCache "x" "Go" "Go" (some .offline)).2 =
      c4WitnessCache.tail ++ [(cacheKey witnessEnv "Go" "Go" "x", "x")]
    ∧ (translateAsync witnessEnv c4WitnessCache "x" "Go" "Go"
        (some .offline)).2.length ≤ 100 := by
  refine ⟨?_, ?_⟩
  · exact (claim_C4_fifo_eviction witnessEnv c4WitnessCache "x" "Go" "Go"
      .offline "x" ((7 : Rat) / 10) (by decide) (by decide) (by decide)
      rfl).1 (by decide)
  · exact (claim_C4_fifo_eviction witnessEnv c4WitnessCache "x" "Go" "Go"
      .offline "x" ((7 : Rat) / 10) (by decide) (by decide) (by decide)
      rfl).2 (by decide)

/-- The least-recently-used discipline the claim asserts, modelled from
the claim's words: the last-use position of a key is its latest index in
the access sequence (insertions and hits both count as uses). -/
def lastUseIdx (accesses : List String) (k : String) : Nat :=
  (accesses.foldl (fun (st : Nat × Nat) a =>
    (st.1 + 1, if a = k then st.1 else st.2)) (0, 0)).2

/-- The least-recently-used key among those present: the one whose last
use is earliest. -/
def lruKey (accesses : List String) (present : List String) : Option String :=
  present.foldl (fun best k =>
    match best with
    | none => some k
    | some b =>
      if lastUseIdx accesses k < lastUseIdx accesses b then some k else best)
    none

/-- The environment of the C4 counterexample trace: an injective stand-in
for Python's string hash. -/
def c4Env : EngineEnv :=
  { hashF := fun c => c.data.foldl (fun a ch => a * 256 + (ch.toNat : Int)) 0,
    aiResult := fun _ _ _ _ => .error (), offlineRest := fun c _ _ => c,
    hasOpenai := false, hasAnthropic := false, hasGoogle := false }

/-- The cache key of the i-th translation of the trace. -/
def c4Key (i : Nat) : String := cacheKey c4Env "Go" "Go" (toString i)

/-- The cache after 100 successful translations of "0" … "99". -/
def c4Cache : TxCache := (List.range 100).map (fun i => (c4Key i, toString i))

/-- The access sequence of the trace: the 100 insertions followed by one
hit on the first key. -/
def c4Accesses : List String := (List.range 100).map c4Key ++ [c4Key 0]

set_option maxRecDepth 100000 in
set_option maxHeartbeats 16000000 in
/-- C4 counterexample.  After filling the cache with keys 0…99 and then
hitting key 0 (which makes key 1 the least-recently-used entry), the next
over-capacity insertion evicts key 0 — the oldest-inserted entry — and
not the least-recently-used key 1.  So eviction is insertion-order FIFO,
not LRU. -/
theorem claim_C4_counterexample :
    lookupKey c4Cache (cacheKey c4Env "Go" "Go" "0") = some "0"
    ∧ (translateAsync c4Env c4Cache "0" "Go" "Go" (some .offline)).2 = c4Cache
    ∧ (translateAsync c4Env c4Cache "100" "Go" "Go" (some .offline)).2 =
        c4Cache.tail ++ [(c4Key 100, "100")]
    ∧ ((c4Cache.map Prod.fst).filter (fun k =>
        ¬ ((translateAsync c4Env c4Cache "100" "Go" "Go"
            (some .offline)).2.map Prod.fst).contains k)) = [c4Key 0]
    ∧ lruKey c4Accesses (c4Cache.map Prod.fst) = some (c4Key 1)
    ∧ ¬ (c4Key 0 = c4Key 1) := by
  refine ⟨by decide, by decide, by decide, by decide, by decide, by decide⟩

/-- Skipped head: the spec-side run ignores it. -/
theorem specChainRun_skip {ε α : Type} (skip : ChainProvider ε α → Bool)
    (p : ChainProvider ε α) (t : List (ChainProvider ε α))
    (h : skip p = true) :
    specChainRun skip (p :: t) = specChainRun skip t := by
  unfold specChainRun
  rw [List.filter_cons_of_neg (by simp [h])]

/-- Tried head that succeeds: the spec-side run returns its result. -/
theorem specChainRun_ok {ε α : Type} (skip : ChainProvider ε α → Bool)
    (p : ChainProvider ε α) (t : List (ChainProvider ε α)) (r : α)
    (h : skip p = false) (hr : p.result = .ok r) :
    specChainRun skip (p :: t) = .ok r := by
  unfold specChainRun
  rw [List.filter_cons_of_pos (by simp [h])]
  simp [List.findSome?_cons, hr, Except.toOption]

/-- Tried head that fails: the spec-side run prepends its fault to the
outcome on the tail. -/
theorem specChainRun_error_cons {ε α : Type} (skip : ChainProvider ε α → Bool)
    (p : ChainProvider ε α) (t : List (ChainProvider ε α)) (e : ε)
    (h : skip p = false) (hr : p.result = .error e) :
    specChainRun skip (p :: t) =
      match specChainRun skip t with
      | .ok r => .ok r
      | .error l => .error ((p.name, e) :: l) := by
  unfold specChainRun
  rw [List.filter_cons_of_pos (by simp [h])]
  have hp : Except.toOption p.result = (none : Option α) := by rw [hr]; rfl
  simp only [List.findSome?_cons, List.filterMap_cons, hp, hr]
  cases hfs : List.findSome? (fun q : ChainProvider ε α => q.result.toOption)
      (t.filter (fun q => !skip q)) with
  | some r => rfl
  | none => rfl

/-- The loop of `ProviderChain.execute` against the spec-side run, with
the accumulated exception list made explicit. -/
theorem chainExecute_go_eq {ε α : Type} (ps : List (ChainProvider ε α))
    (acc : List (String × ε)) :
    chainExecute.go ps acc =
      match specChainRun
          (fun p => decide (p.status = .unhealthy) || !p.hasMethod) ps with
      | .ok r => .ok r
      | .error l => .error (acc ++ l) := by
  induction ps generalizing acc with
  | nil => simp [chainExecute.go, specChainRun]
  | cons p t ih =>
    by_cases hst : p.status = .unhealthy
    · rw [chainExecute.go, if_pos hst,
        specChainRun_skip _ _ _ (by simp [hst]), ih]
    · by_cases hm : p.hasMethod
      · cases hr : p.result with
        | ok r =>
          rw [chainExecute.go, if_neg hst, hm,
            specChainRun_ok _ _ _ _ (by simp [hst, hm]) hr]
          simp [hr]
        | error e =>
          rw [chainExecute.go, if_neg hst, hm,
            specChainRun_error_cons _ _ _ _ (by simp [hst, hm]) hr]
          simp only [Bool.not_true, Bool.false_eq_true, if_false, hr]
          rw [ih]
          cases specChainRun
              (fun p => decide (p.status = .unhealthy) || !p.hasMethod) t with
          | ok r => rfl
          | error l => simp
      · have hm' : p.hasMethod = false := by simpa using hm
        rw [chainExecute.go, if_neg hst, hm',
          specChainRun_skip _ _ _ (by simp [hm']), ih]
        simp

/-- C2 as amended, top level: `ProviderChain.execute` tries providers in
order skipping those in UNHEALTHY state and those lacking the operation,
returns the first success, and otherwise raises the all-providers-failed
fault carrying every tried candidate's `(name, fault)`. -/
theorem claim_C2_chain_fallback {ε α : Type} (ps : List (ChainProvider ε α)) :
    chainExecute ps =
      specChainRun (fun p => decide (p.status = .unhealthy) || !p.hasMethod) ps := by
  unfold chainExecute
  rw [chainExecute_go_eq]
  cases specChainRun (fun p => decide (p.status = .unhealthy) || !p.hasMethod) ps
    with
  | ok r => rfl
  | error l => simp

/-- C2 counterexample: a chain whose only provider is DEGRADED and
succeeds.  The source tries it and returns its result; under the claim's
rule (skip every instance not in healthy state) it would be skipped and
the chain would fail with an empty fault list. -/
def c2DegradedOk : ChainProvider String String :=
  ⟨"p", .degraded, true, .ok "out"⟩

theorem claim_C2_counterexample :
    chainExecute [c2DegradedOk] = .ok "out"
    ∧ specChainRun (fun p => !(decide (p.status = .healthy))) [c2DegradedOk] =
        .error []
    ∧ (Except.ok "out" ≠
        (Except.error [] : Except (List (String × String)) String)) := by
  refine ⟨rfl, rfl, fun h => Except.noConfusion h⟩

/-- The file written by `_save` always carries the checksum of its own
non-checksum fields. -/
theorem configSave_checksum (serialize : Config → String)
    (hash enc : String → String) (sch : ConfigSchema) (d : Config) :
    lookupKey (configSave serialize hash enc sch d) "_checksum" =
      some (.vStr (calculateChecksum serialize hash
        (configSave serialize hash enc sch d))) := by
  simp only [configSave]
  rw [pyDictSet_lookup_self]
  unfold calculateChecksum
  rw [pyDictSet_filter_ne]

/-- C7.  After every persisting mutation — `set`, `update`, a transaction
commit, `import` (merge or replace), `reset` — the file written to disk
carries a `_checksum` field equal to the hash of the serialization of all
its non-checksum fields, where `serialize` stands for the sorted JSON
dump and `hash` for the SHA-256 hex digest. -/
theorem claim_C7_checksum_invariant (serialize : Config → String)
    (hash enc : String → String) (sch : ConfigSchema) :
    (∀ d : Config,
      lookupKey (configSave serialize hash enc sch d) "_checksum" =
        some (.vStr (calculateChecksum serialize hash
          (configSave serialize hash enc sch d))))
    ∧ (∀ d key v st file,
        configSet serialize hash enc sch d key v = .ok (st, file) →
        lookupKey file "_checksum" =
          some (.vStr (calculateChecksum serialize hash file)))
    ∧ (∀ d updates st file,
        configUpdate serialize hash enc sch d updates = .ok (st, file) →
        lookupKey file "_checksum" =
          some (.vStr (calculateChecksum serialize hash file)))
    ∧ (∀ d changes,
        lookupKey (txCommit serialize hash enc sch d changes).2 "_checksum" =
          some (.vStr (calculateChecksum serialize hash
            (txCommit serialize hash enc sch d changes).2)))
    ∧ (∀ d importData merge st file,
        configImport serialize hash enc sch d importData merge =
          .ok (st, file) →
        lookupKey file "_checksum" =
          some (.vStr (calculateChecksum serialize hash file)))
    ∧ (lookupKey (configReset serialize hash enc sch).2 "_checksum" =
        some (.vStr (calculateChecksum serialize hash
          (configReset serialize hash enc sch).2))) := by
  refine ⟨configSave_checksum serialize hash enc sch, ?_, ?_, ?_, ?_, ?_⟩
  · intro d key v st file h
    simp only [configSet] at h
    split at h
    · split at h
      · simp at h
      · split at h
        · simp only [Except.ok.injEq, Prod.mk.injEq] at h
          rw [← h.2]
          exact configSave_checksum serialize hash enc sch _
        · simp at h
    · simp only [Except.ok.injEq, Prod.mk.injEq] at h
      rw [← h.2]
      exact configSave_checksum serialize hash enc sch _
  · intro d updates st file h
    simp only [configUpdate] at h
    split at h
    · simp at h
    · split at h
      · simp only [Except.ok.injEq, Prod.mk.injEq] at h
        rw [← h.2]
        exact configSave_checksum serialize hash enc sch _
      · simp at h
  · intro d changes
    exact configSave_checksum serialize hash enc sch _
  · intro d importData merge st file h
    simp only [configImport] at h
    split at h
    · split at h
      · simp at h
      · split at h
        · simp only [Except.ok.injEq, Prod.mk.injEq] at h
          rw [← h.2]
          exact configSave_checksum serialize hash enc sch _
        · simp at h
    · split at h
      · simp at h
      · split at h
        · simp only [Except.ok.injEq, Prod.mk.injEq] at h
          rw [← h.2]
          exact configSave_checksum serialize hash enc sch _
        · simp at h
  · exact configSave_checksum serialize hash enc sch _

/-- A minimal schema for concrete instantiation. -/
def emptySchema : ConfigSchema := { version := "1", fields := [], required := [] }

/-- Witness for C7: a concrete `set` on an empty store writes a file
whose checksum field hashes its own non-checksum fields. -/
theorem claim_C7_checksum_invariant_witness :
    lookupKey (configSave (fun _ => "") id id emptySchema
        [("a", CVal.vStr "x")]) "_checksum" =
      some (.vStr (calculateChecksum (fun _ => "") id
        (configSave (fun _ => "") id id emptySchema [("a", CVal.vStr "x")]))) :=
  (claim_C7_checksum_invariant (fun _ => "") id id emptySchema).2.1
    [] "a" (.vStr "x") [("a", CVal.vStr "x")]
    (configSave (fun _ => "") id id emptySchema [("a", CVal.vStr "x")]) rfl

/-- C8 counterexample: a replace-mode import whose record omits the
required field `theme` is rejected with a schema-validation failure — it
is not filled from the built-in defaults and does not succeed. -/
theorem claim_C8_counterexample :
    configImport (fun _ => "") id id DEFAULT_SCHEMA getDefaults
        [("font_size", .vInt 12)] false = .error .schemaValidation
    ∧ DEFAULT_SCHEMA.validate [("font_size", .vInt 12)] =
        .ok [.requiredMissing "theme"] := by
  exact ⟨rfl, rfl⟩

/-- C8 as amended: a replace-mode import is validated before any
mutation — when validation reports errors the import is rejected with a
schema-validation failure and nothing is written — and a required schema
field omitted by the imported record always contributes a
required-field-missing validation error (it is never filled from the
defaults). -/
theorem claim_C8_import_replace (serialize : Config → String)
    (hash enc : String → String) (sch : ConfigSchema) (d importData : Config) :
    (∀ errs, sch.validate importData = .ok errs → errs ≠ [] →
      configImport serialize hash enc sch d importData false =
        .error .schemaValidation)
    ∧ (∀ f, f ∈ sch.required → lookupKey importData f = none →
      ∀ errs, sch.validate importData = .ok errs →
        VErr.requiredMissing f ∈ errs) := by
  constructor
  · intro errs hv hne
    unfold configImport
    simp only [Bool.false_eq_true, if_false, hv]
    rw [if_neg hne]
  · intro f hf hlook errs hv
    unfold ConfigSchema.validate at hv
    cases hvf : validateFields sch.fields importData with
    | error u => rw [hvf] at hv; simp at hv
    | ok fe =>
      rw [hvf] at hv
      simp only [Except.ok.injEq] at hv
      rw [← hv]
      apply List.mem_append_left
      refine List.mem_filterMap.mpr ⟨f, hf, ?_⟩
      simp [hlook]

/-- Witness for C8 as amended at the concrete import of the
counterexample. -/
theorem claim_C8_import_replace_witness :
    configImport (fun _ => "") id id DEFAULT_SCHEMA getDefaults
        [("font_size", .vInt 12)] false = .error .schemaValidation
    ∧ VErr.requiredMissing "theme" ∈ [VErr.requiredMissing "theme"] := by
  constructor
  · exact (claim_C8_import_replace (fun _ => "") id id DEFAULT_SCHEMA
      getDefaults [("font_size", .vInt 12)]).1
      [.requiredMissing "theme"] rfl (by decide)
  · exact (claim_C8_import_replace (fun _ => "") id id DEFAULT_SCHEMA
      getDefaults [("font_size", .vInt 12)]).2
      "theme" (by decide) rfl [.requiredMissing "theme"] rfl

/-- The Big-O rule ladder as the specification words it, over the
detected nested-loop count N, the loop count L, and the recursion /
sort / binary-search signature flags. -/
def specBigORule (N L : Nat) (recursion sortSig binSearchSig : Bool) : BigO :=
  if recursion ∧ 0 < N then .O_2_N
  else if 2 ≤ N then .O_N_CUBED
  else if N = 1 then .O_N_SQUARED
  else if sortSig then .O_N_LOG_N
  else if binSearchSig then .O_LOG_N
  else if 1 ≤ L then .O_N
  else if recursion then .O_N
  else .O_1

/-- The step function of `_estimate_overall_big_o`'s loop. -/
theorem bigO_fold_ge (fs : List BigO) (w : BigO) :
    rankOf w ≤ rankOf (fs.foldl (fun worst f =>
      if f ≠ .UNKNOWN ∧ rankOf worst < rankOf f then f else worst) w) := by
  induction fs generalizing w with
  | nil => exact le_refl _
  | cons f t ih =>
    simp only [List.foldl]
    refine le_trans ?_ (ih _)
    by_cases h : f ≠ BigO.UNKNOWN ∧ rankOf w < rankOf f
    · rw [if_pos h]
      exact le_of_lt h.2
    · rw [if_neg h]

/-- Every non-UNKNOWN member is bounded by the loop's result. -/
theorem bigO_fold_mem_le (fs : List BigO) (w f : BigO) (hf : f ∈ fs)
    (hne : f ≠ .UNKNOWN) :
    rankOf f ≤ rankOf (fs.foldl (fun worst g =>
      if g ≠ .UNKNOWN ∧ rankOf worst < rankOf g then g else worst) w) := by
  induction fs generalizing w with
  | nil => cases hf
  | cons g t ih =>
    simp only [List.foldl]
    rcases List.mem_cons.mp hf with hfg | hft
    · subst hfg
      refine le_trans ?_ (bigO_fold_ge t _)
      by_cases h : f ≠ BigO.UNKNOWN ∧ rankOf w < rankOf f
      · rw [if_pos h]
      · rw [if_neg h]
        rcases not_and_or.mp h with h1 | h2
        · exact absurd hne h1
        · exact le_of_not_lt h2
    · exact ih _ hft

/-- The loop's result is a member of the list or the initial value. -/
theorem bigO_fold_mem_or (fs : List BigO) (w : BigO) :
    (fs.foldl (fun worst g =>
      if g ≠ .UNKNOWN ∧ rankOf worst < rankOf g then g else worst) w) ∈ fs
    ∨ (fs.foldl (fun worst g =>
      if g ≠ .UNKNOWN ∧ rankOf worst < rankOf g then g else worst) w) = w := by
  induction fs generalizing w with
  | nil => exact Or.inr rfl
  | cons g t ih =>
    simp only [List.foldl]
    rcases ih (if g ≠ BigO.UNKNOWN ∧ rankOf w < rankOf g then g else w) with
      hm | he
    · exact Or.inl (List.mem_cons_of_mem _ hm)
    · rw [he]
      by_cases h : g ≠ BigO.UNKNOWN ∧ rankOf w < rankOf g
      · rw [if_pos h]
        exact Or.inl (List.mem_cons_self _ _)
      · rw [if_neg h]
        exact Or.inr rfl

/-- C9.  `_estimate_big_o` realises exactly the first-matching-rule
ladder of the specification, and `_estimate_overall_big_o` is the
maximum of the (never-UNKNOWN) function-level estimates under the order
O(1) < O(log n) < O(n) < O(n log n) < O(n²) < O(n³) < O(2ⁿ) < O(n!). -/
theorem claim_C9_big_o_estimation :
    (∀ (loop_count nested_loops : Nat)
        (has_recursion has_sort has_binary_search : Bool),
      estimateBigO loop_count has_recursion nested_loops has_sort
          has_binary_search =
        specBigORule nested_loops loop_count has_recursion has_sort
          has_binary_search)
    ∧ (∀ fs : List BigO, (∀ f ∈ fs, f ≠ .UNKNOWN) →
        (∀ f ∈ fs, rankOf f ≤ rankOf (estimateOverallBigO fs))
        ∧ (fs = [] ∧ estimateOverallBigO fs = .O_1
           ∨ estimateOverallBigO fs ∈ fs)) := by
  constructor
  · intro _ _ _ _ _
    rfl
  · intro fs hne
    simp only [estimateOverallBigO]
    constructor
    · intro f hf
      exact bigO_fold_mem_le fs .O_1 f hf (hne f hf)
    · cases fs with
      | nil => exact Or.inl ⟨rfl, rfl⟩
      | cons g t =>
        rcases bigO_fold_mem_or (g :: t) .O_1 with hm | he
        · exact Or.inr hm
        · refine Or.inr ?_
          have hg0 : rankOf g = 0 := by
            have h1 := bigO_fold_mem_le (g :: t) .O_1 g
              (List.mem_cons_self _ _) (hne g (List.mem_cons_self _ _))
            rw [he] at h1
            have : rankOf BigO.O_1 = 0 := rfl
            omega
          have hgO1 : g = BigO.O_1 := by
            have hd : ∀ f : BigO, f ≠ .UNKNOWN → rankOf f = 0 → f = .O_1 := by
              intro f h1 h2
              cases f <;>
                first
                | rfl
                | exact absurd h2 (by decide)
            exact hd g (hne g (List.mem_cons_self _ _)) hg0
          rw [he, ← hgO1]
          exact List.mem_cons_self _ _

/-- Witness for C9 at a concrete estimate list. -/
theorem claim_C9_big_o_estimation_witness :
    rankOf .O_N ≤ rankOf (estimateOverallBigO [.O_N, .O_LOG_N])
    ∧ estimateOverallBigO [.O_N, .O_LOG_N] ∈ [BigO.O_N, BigO.O_LOG_N] := by
  have hne : ∀ f ∈ [BigO.O_N, BigO.O_LOG_N], f ≠ BigO.UNKNOWN := by
    intro f hf
    fin_cases hf <;> decide
  constructor
  · exact (claim_C9_big_o_estimation.2 [.O_N, .O_LOG_N] hne).1
      .O_N (List.mem_cons_self _ _)
  · exact ((claim_C9_big_o_estimation.2 [.O_N, .O_LOG_N] hne).2).resolve_left
      (by simp)

/-- C10.  A provider instance with zero processed requests reports
success-rate 1 and average-latency 0, so both composite scores — the
chain's 0.7·success_rate + 0.3·latency_score and the best-performance
balancer's success_rate − average_latency/10 — give it the value 1, the
maximum either score can take over any well-formed metrics record.  So
fresh providers sort ahead of (or tie with) every exercised provider. -/
theorem claim_C10_fresh_provider_score :
    (∀ m : ProviderMetrics, m.total_requests = 0 →
        m.successful_requests ≤ m.total_requests →
        m.success_rate = 1 ∧ m.average_latency = 0
        ∧ providerScore m = 1 ∧ performanceScore m = 1)
    ∧ (∀ m : ProviderMetrics, m.successful_requests ≤ m.total_requests →
        0 ≤ m.total_latency →
        providerScore m ≤ 1 ∧ performanceScore m ≤ 1) := by
  constructor
  · intro m h0 hle
    have hsucc : m.successful_requests = 0 := by omega
    have hsr : m.success_rate = 1 := by
      simp [ProviderMetrics.success_rate, h0]
    have hal : m.average_latency = 0 := by
      simp [ProviderMetrics.average_latency, hsucc]
    refine ⟨hsr, hal, ?_, ?_⟩
    · simp only [providerScore, hsr, hal]
      norm_num
    · simp only [performanceScore, hsr, hal]
      norm_num
  · intro m hle hlat
    have hsr : m.success_rate ≤ 1 := by
      unfold ProviderMetrics.success_rate
      split
      · exact le_refl _
      · rename_i h0
        rw [div_le_one (by exact_mod_cast Nat.pos_of_ne_zero h0)]
        exact_mod_cast hle
    have havg : 0 ≤ m.average_latency := by
      unfold ProviderMetrics.average_latency
      split
      · exact le_refl _
      · exact div_nonneg hlat (by positivity)
    constructor
    · simp only [providerScore]
      split
      · rename_i hpos
        have hl : (1 : Rat) / (1 + m.average_latency) ≤ 1 := by
          rw [div_le_one (by linarith)]
          linarith
        linarith
      · linarith
    · unfold performanceScore
      have : 0 ≤ m.average_latency / 10 := by positivity
      linarith

/-- Witness for C10 at concrete metrics records. -/
theorem claim_C10_fresh_provider_score_witness :
    (ProviderMetrics.success_rate ⟨0, 0, 0, 0⟩ = 1
      ∧ ProviderMetrics.average_latency ⟨0, 0, 0, 0⟩ = 0
      ∧ providerScore ⟨0, 0, 0, 0⟩ = 1 ∧ performanceScore ⟨0, 0, 0, 0⟩ = 1)
    ∧ (providerScore ⟨2, 1, 1, 0⟩ ≤ 1 ∧ performanceScore ⟨2, 1, 1, 0⟩ ≤ 1) := by
  constructor
  · exact claim_C10_fresh_provider_score.1 ⟨0, 0, 0, 0⟩ rfl (le_refl 0)
  · exact claim_C10_fresh_provider_score.2 ⟨2, 1, 1, 0⟩ (by decide) (le_refl 0)

/-- The tie-break rule the claim asserts, modelled from the claim's
words: the first language attaining the maximum score in the
supported-language order Python, JavaScript, TypeScript, Java, Kotlin,
Swift, C++, Go, Rust, Ruby. -/
def claimOrderDetect (code : List Char) : Option String :=
  firstMax (SUPPORTED_LANGUAGES.map (fun l =>
    (l, (lookupKey (scoresOf code) l).getD 0))) (maxScoreOf code)

/-- A running maximum dominates its initial value. -/
theorem foldl_max_init_le (l : List Nat) (a : Nat) : a ≤ l.foldl max a := by
  induction l generalizing a with
  | nil => exact le_refl a
  | cons y t ih => exact le_trans (le_max_left a y) (ih _)

/-- A running maximum dominates every member. -/
theorem le_foldl_max (l : List Nat) (a x : Nat) (hx : x ∈ l) :
    x ≤ l.foldl max a := by
  induction l generalizing a with
  | nil => cases hx
  | cons y t ih =>
    rcases List.mem_cons.mp hx with h | h
    · subst h
      exact le_trans (le_max_right a x) (foldl_max_init_le t _)
    · exact ih _ h

/-- A running maximum is the initial value or a member. -/
theorem foldl_max_cases (l : List Nat) (a : Nat) :
    l.foldl max a = a ∨ l.foldl max a ∈ l := by
  induction l generalizing a with
  | nil => exact Or.inl rfl
  | cons y t ih =>
    simp only [List.foldl]
    rcases ih (max a y) with h | h
    · rcases max_choice a y with hm | hm
      · exact Or.inl (by rw [h, hm])
      · exact Or.inr (by rw [h, hm]; exact List.mem_cons_self _ _)
    · exact Or.inr (List.mem_cons_of_mem _ h)

/-- `firstMax` splits the score list at the first entry attaining the
maximum: everything before it scores differently. -/
theorem firstMax_decomp (xs : List (String × Nat)) (m : Nat)
    (h : ∃ p ∈ xs, p.2 = m) :
    ∃ L pre post, firstMax xs m = some L
      ∧ xs = pre ++ (L, m) :: post ∧ ∀ q ∈ pre, q.2 ≠ m := by
  induction xs with
  | nil =>
    obtain ⟨p, hp, _⟩ := h
    cases hp
  | cons p t ih =>
    rcases p with ⟨a, b⟩
    by_cases hb : b = m
    · subst hb
      refine ⟨a, [], t, ?_, by simp, by simp⟩
      unfold firstMax
      rw [List.find?_cons_of_pos _ (by simp)]
      rfl
    · have h' : ∃ q ∈ t, q.2 = m := by
        obtain ⟨q, hq, hqm⟩ := h
        rcases List.mem_cons.mp hq with he | ht
        · rw [he] at hqm
          exact absurd hqm hb
        · exact ⟨q, ht, hqm⟩
      obtain ⟨L, pre, post, h1, h2, h3⟩ := ih h'
      refine ⟨L, (a, b) :: pre, post, ?_, by rw [List.cons_append, h2], ?_⟩
      · unfold firstMax at h1 ⊢
        rw [List.find?_cons_of_neg _ (by simp [hb])]
        exact h1
      · intro q hq
        rcases List.mem_cons.mp hq with he | hp2
        · rw [he]
          exact hb
        · exact h3 q hp2

/-- C5 as amended: detecting the empty string returns undetected; a zero
maximum score returns undetected; and when the maximum score is at least
2, detection returns the first language attaining the maximum in the
pattern-table order Python, JavaScript, Java, C++, Go, Rust, Kotlin,
Swift, Ruby, TypeScript (every earlier language scores strictly lower). -/
theorem claim_C5_detection (s : String) :
    (detectLanguage "" = none)
    ∧ (maxScoreOf (pyStrip s.data) = 0 → detectLanguage s = none)
    ∧ (2 ≤ maxScoreOf (pyStrip s.data) →
        ∃ L pre post,
          detectLanguage s = some L
          ∧ scoresOf (pyStrip s.data) =
              pre ++ (L, maxScoreOf (pyStrip s.data)) :: post
          ∧ ∀ q ∈ pre, q.2 < maxScoreOf (pyStrip s.data)) := by
  refine ⟨rfl, ?_, ?_⟩
  · intro h0
    by_cases hc : pyStrip s.data = []
    · simp only [detectLanguage, if_pos hc]
    · simp only [detectLanguage, if_neg hc, h0]
      simp
  · intro h2
    have hc : pyStrip s.data ≠ [] := by
      intro e
      rw [e] at h2
      have hz : maxScoreOf ([] : List Char) = 0 := by decide
      omega
    have hattain : ∃ p ∈ scoresOf (pyStrip s.data),
        p.2 = maxScoreOf (pyStrip s.data) := by
      rcases foldl_max_cases
          ((scoresOf (pyStrip s.data)).map (fun p => p.2)) 0 with h | h
      · unfold maxScoreOf at h2
        omega
      · obtain ⟨p, hp, he⟩ := List.mem_map.mp h
        exact ⟨p, hp, he⟩
    obtain ⟨L, pre, post, hfm, hdecomp, hpre⟩ :=
      firstMax_decomp (scoresOf (pyStrip s.data))
        (maxScoreOf (pyStrip s.data)) hattain
    have hpos : maxScoreOf (pyStrip s.data) > 0 := by omega
    have hne1 : ¬ (maxScoreOf (pyStrip s.data) = 1) := by omega
    refine ⟨L, pre, post, ?_, hdecomp, ?_⟩
    · simp only [detectLanguage, if_neg hc, if_pos hpos, hfm, if_neg hne1]
    · intro q hq
      have hmem : q.2 ∈ (scoresOf (pyStrip s.data)).map (fun p => p.2) := by
        refine List.mem_map_of_mem _ ?_
        rw [hdecomp]
        exact List.mem_append_left _ hq
      have hle : q.2 ≤ maxScoreOf (pyStrip s.data) :=
        le_foldl_max _ 0 q.2 hmem
      have hne := hpre q hq
      omega

set_option maxRecDepth 100000 in
set_option maxHeartbeats 16000000 in
/-- Witness for C5 as amended: a string on which every pattern fails, and
one with maximum score 2 (two Python patterns match). -/
theorem claim_C5_detection_witness :
    detectLanguage "zzz qqq" = none
    ∧ ∃ L pre post,
        detectLanguage "def f():\n    print(x)" = some L
        ∧ scoresOf (pyStrip ("def f():\n    print(x)").data) =
            pre ++ (L, maxScoreOf (pyStrip ("def f():\n    print(x)").data))
              :: post
        ∧ ∀ q ∈ pre,
            q.2 < maxScoreOf (pyStrip ("def f():\n    print(x)").data) := by
  constructor
  · exact (claim_C5_detection "zzz qqq").2.1 (by decide)
  · exact (claim_C5_detection ("def f():\n    print(x)")).2.2 (by decide)

/-- The input of the C5 counterexample: two TypeScript patterns and two
Java patterns match, every other language scores 0. -/
def c5Input : String := "interface A;x: number;implements B;new C("

set_option maxRecDepth 100000 in
set_option maxHeartbeats 16000000 in
/-- C5 counterexample.  On `c5Input` the maximum score is 2, attained by
both Java and TypeScript.  The source returns Java, the first maximal
language in its pattern-table order; the claim's tie-break order (the
supported-language list, where TypeScript precedes Java) would return
TypeScript. -/
theorem claim_C5_counterexample :
    detectLanguage c5Input = some "Java"
    ∧ maxScoreOf (pyStrip c5Input.data) = 2
    ∧ claimOrderDetect (pyStrip c5Input.data) = some "TypeScript"
    ∧ ¬ (some "Java" = (some "TypeScript" : Option String)) := by
  refine ⟨by decide, by decide, by decide, by decide⟩
